import Mathlib

/-!
# Verification of the announcements router

A shallow embedding of `src/backend/routers/announcements.py` (FastAPI CRUD
endpoints for time-windowed announcements backed by a document store), together
with proofs of the specification's claims about it.

Modelling conventions:
* Python `datetime` instants are represented by the number of microseconds since
  0001-01-01T00:00:00 UTC, as an `Int`.  Attaching `timezone.utc` to a naive
  datetime adds no offset; `astimezone(timezone.utc)` preserves the instant.
  (Python's `OverflowError` on instants outside years 1..9999 is not modelled;
  the claims below restrict attention to representable instants.)
* `datetime.fromisoformat` is modelled on the grammar
  `YYYY-MM-DD[<any one character>HH[:MM[:SS[.f{1,6}]]][(+|-)HH[:MM[:SS]]]]`:
  CPython accepts any single character as the date-time separator, hour-only
  times and offsets with seconds, all of which the model includes.  (Basic
  formats without dashes and fractional offset seconds are not modelled.)
* `str.strip()` is modelled over the ASCII whitespace characters.
* The Mongo collections are modelled as lists of documents in natural order;
  `find_one`/`update_one`/`delete_one` act on the first match.
* Raised `HTTPException`s are modelled with `Except`; since endpoints mutate the
  store before some raises, each mutating endpoint returns the post-call store
  together with the outcome.
-/

namespace Announcements

/-- Decidable equality of outcomes, for concrete witness computations. -/
instance {ε α : Type} [DecidableEq ε] [DecidableEq α] : DecidableEq (Except ε α) := fun a b =>
  match a, b with
  | .error e, .error e' =>
    if h : e = e' then isTrue (by rw [h]) else isFalse (fun hc => h (Except.error.inj hc))
  | .ok v, .ok v' =>
    if h : v = v' then isTrue (by rw [h]) else isFalse (fun hc => h (Except.ok.inj hc))
  | .error _, .ok _ => isFalse Except.noConfusion
  | .ok _, .error _ => isFalse Except.noConfusion

/-- An HTTP error response (`HTTPException(status_code, detail)`). -/
structure HErr where
  status : Nat
  detail : String
deriving Repr, DecidableEq

/-! ## Python string primitives -/

/-- ASCII whitespace, as stripped by Python's `str.strip()`. -/
def isPySpace (c : Char) : Bool :=
  c = ' ' || c = '\t' || c = '\n' || c = '\r' || c = '\x0b' || c = '\x0c'

/-- `str.strip()`: drop whitespace from both ends. -/
def pyStrip (cs : List Char) : List Char :=
  ((cs.dropWhile isPySpace).reverse.dropWhile isPySpace).reverse

/-- `str.strip()` at the `String` level. -/
def pyStripString (s : String) : String :=
  ⟨pyStrip s.data⟩

/-- The six characters of the string `"+00:00"`. -/
def plus0000 : List Char := ['+', '0', '0', ':', '0', '0']

/-- `str.replace("Z", "+00:00")`: every occurrence of the one-character pattern
`"Z"` is replaced. -/
def replaceZ : List Char → List Char
  | [] => []
  | c :: cs => (if c = 'Z' then plus0000 else [c]) ++ replaceZ cs

/-! ## The `datetime.fromisoformat` model -/

/-- Decimal digit test (code points 48..57). -/
def isDig (c : Char) : Bool := 48 ≤ c.toNat && c.toNat ≤ 57

/-- Value of a decimal digit character. -/
def dval (c : Char) : Nat := c.toNat - 48

/-- Leap year in the proleptic Gregorian calendar. -/
def isLeap (y : Nat) : Bool := y % 4 = 0 && (y % 100 ≠ 0 || y % 400 = 0)

/-- Number of days in month `m` of year `y` (0 for an out-of-range month). -/
def daysInMonth (y m : Nat) : Nat :=
  match m with
  | 1 => 31
  | 2 => if isLeap y then 29 else 28
  | 3 => 31
  | 4 => 30
  | 5 => 31
  | 6 => 30
  | 7 => 31
  | 8 => 31
  | 9 => 30
  | 10 => 31
  | 11 => 30
  | 12 => 31
  | _ => 0

/-- A parsed Python `datetime`: calendar fields plus an optional fixed UTC
offset in seconds (`none` models a naive datetime). -/
structure PyDateTime where
  year : Nat
  month : Nat
  day : Nat
  hour : Nat
  minute : Nat
  second : Nat
  usec : Nat
  tzSeconds : Option Int
deriving Repr, DecidableEq

/-- Parse a trailing UTC offset `(+|-)HH[:MM[:SS]]` into seconds; the empty
remainder means a naive datetime. -/
def parseOffset : List Char → Option (Option Int)
  | [] => some none
  | sgn :: h1 :: h2 :: rest =>
    if (sgn = '+' || sgn = '-') && isDig h1 && isDig h2 && 10 * dval h1 + dval h2 ≤ 23 then
      let hh := 10 * dval h1 + dval h2
      let sign : Int := if sgn = '-' then -1 else 1
      match rest with
      | [] => some (some (sign * (hh * 3600 : Nat)))
      | ':' :: m1 :: m2 :: rest2 =>
        if isDig m1 && isDig m2 && 10 * dval m1 + dval m2 ≤ 59 then
          let mm := 10 * dval m1 + dval m2
          match rest2 with
          | [] => some (some (sign * (hh * 3600 + mm * 60 : Nat)))
          | [':', s1, s2] =>
            if isDig s1 && isDig s2 && 10 * dval s1 + dval s2 ≤ 59 then
              some (some (sign * (hh * 3600 + mm * 60 + (10 * dval s1 + dval s2) : Nat)))
            else none
          | _ => none
        else none
      | _ => none
    else none
  | _ => none

/-- Split a maximal run of leading decimal digits off a character list,
returning their values. -/
def spanDigits : List Char → List Nat × List Char
  | [] => ([], [])
  | c :: cs =>
    if isDig c then
      let p := spanDigits cs
      (dval c :: p.1, p.2)
    else ([], c :: cs)

/-- Microseconds denoted by a run of 1..6 fractional digits. -/
def fracVal (ds : List Nat) : Nat :=
  (ds.foldl (fun a d => 10 * a + d) 0) * 10 ^ (6 - ds.length)

/-- Parse a fractional-seconds part (after the `'.'`) followed by an optional
offset: 1 to 6 digits, scaled to microseconds. -/
def parseFrac (cs : List Char) : Option (Nat × Option Int) :=
  let p := spanDigits cs
  if 1 ≤ p.1.length && p.1.length ≤ 6 then
    (parseOffset p.2).map fun tz => (fracVal p.1, tz)
  else none

/-- Parse what follows `HH:MM`: optional `:SS[.frac]`, then optional offset. -/
def parseSecTail : List Char → Option (Nat × Nat × Option Int)
  | ':' :: s1 :: s2 :: r =>
    if isDig s1 && isDig s2 && 10 * dval s1 + dval s2 ≤ 59 then
      match r with
      | '.' :: fr => (parseFrac fr).map fun p => (10 * dval s1 + dval s2, p.1, p.2)
      | r' => (parseOffset r').map fun tz => (10 * dval s1 + dval s2, 0, tz)
    else none
  | r => (parseOffset r).map fun tz => (0, 0, tz)

/-- Parse the time-of-day part `HH[:MM[:SS[.frac]]][offset]` (an hour alone is
a valid time). -/
def parseTime (cs : List Char) : Option (Nat × Nat × Nat × Nat × Option Int) :=
  match cs with
  | h1 :: h2 :: rest =>
    if isDig h1 && isDig h2 && 10 * dval h1 + dval h2 ≤ 23 then
      match rest with
      | ':' :: n1 :: n2 :: r =>
        if isDig n1 && isDig n2 && 10 * dval n1 + dval n2 ≤ 59 then
          (parseSecTail r).map fun p =>
            (10 * dval h1 + dval h2, 10 * dval n1 + dval n2, p.1, p.2.1, p.2.2)
        else none
      | r => (parseOffset r).map fun tz => (10 * dval h1 + dval h2, 0, 0, 0, tz)
    else none
  | _ => none

/-- `datetime.fromisoformat` on a character list: `YYYY-MM-DD`, optionally
followed by any single separator character and a time with optional offset
(CPython skips the character at index 10 without checking it).
Field ranges are validated (`MINYEAR = 1`, real month lengths, leap years). -/
def pyFromisoList (cs : List Char) : Option PyDateTime :=
  match cs with
  | y1 :: y2 :: y3 :: y4 :: '-' :: m1 :: m2 :: '-' :: d1 :: d2 :: rest =>
    if isDig y1 && isDig y2 && isDig y3 && isDig y4 && isDig m1 && isDig m2 &&
        isDig d1 && isDig d2 then
      let y := 1000 * dval y1 + 100 * dval y2 + 10 * dval y3 + dval y4
      let mo := 10 * dval m1 + dval m2
      let dd := 10 * dval d1 + dval d2
      if 1 ≤ y && 1 ≤ mo && mo ≤ 12 && 1 ≤ dd && dd ≤ daysInMonth y mo then
        match rest with
        | [] => some ⟨y, mo, dd, 0, 0, 0, 0, none⟩
        | _ :: timeRest =>
          (parseTime timeRest).map fun p =>
            ⟨y, mo, dd, p.1, p.2.1, p.2.2.1, p.2.2.2.1, p.2.2.2.2⟩
      else none
    else none
  | _ => none

/-! ## Calendar arithmetic (instants) -/

/-- Leap years among `1..y` (Python's `_days_before_year` helper count). -/
def leapsBefore (y : Nat) : Nat := y / 4 - y / 100 + y / 400

/-- Days in the proleptic Gregorian calendar strictly before year `y`,
counted from 0001-01-01. -/
def daysBeforeYear (y : Nat) : Nat := 365 * (y - 1) + leapsBefore (y - 1)

/-- Days in year `y` strictly before month `m`. -/
def daysBeforeMonth (y m : Nat) : Nat :=
  (match m with
   | 1 => 0
   | 2 => 31
   | 3 => 59
   | 4 => 90
   | 5 => 120
   | 6 => 151
   | 7 => 181
   | 8 => 212
   | 9 => 243
   | 10 => 273
   | 11 => 304
   | 12 => 334
   | _ => 0) + (if 3 ≤ m && isLeap y then 1 else 0)

/-- Zero-based day count of the date `(y, m, d)` from 0001-01-01. -/
def ordinal0 (y m d : Nat) : Nat := daysBeforeYear y + daysBeforeMonth y m + (d - 1)

/-- Microseconds per day. -/
def usecPerDay : Nat := 86400000000

/-- Local-wallclock microseconds of a parsed datetime since 0001-01-01T00:00. -/
def localUsec (p : PyDateTime) : Nat :=
  ordinal0 p.year p.month p.day * usecPerDay +
    ((p.hour * 60 + p.minute) * 60 + p.second) * 1000000 + p.usec

/-- UTC instant of a parsed datetime: the code sets `tzinfo = utc` when the
datetime is naive (offset 0) and then converts to UTC, which preserves the
instant. -/
def utcInstantOfParsed (p : PyDateTime) : Int :=
  (localUsec p : Int) - p.tzSeconds.getD 0 * 1000000

/-! ## `_to_utc_datetime` -/

/-- `_to_utc_datetime(value, field_name, required)` from the source: empty or
missing input is rejected (if required) or absent; otherwise the value is
stripped, every `"Z"` is replaced by `"+00:00"`, and the result is parsed as an
ISO timestamp and normalized to a UTC instant. -/
def _to_utc_datetime (value : Option String) (field : String) (required : Bool) :
    Except HErr (Option Int) :=
  match value with
  | none =>
    if required then .error ⟨400, field ++ " is required"⟩ else .ok none
  | some v =>
    if v = "" then
      if required then .error ⟨400, field ++ " is required"⟩ else .ok none
    else
      match pyFromisoList (replaceZ (pyStrip v.data)) with
      | some p => .ok (some (utcInstantOfParsed p))
      | none => .error ⟨400, "Invalid " ++ field ++ " format"⟩

/-- The specification's description of the time parser, written from its words:
the value is trimmed, a trailing literal `"Z"` (and only a trailing one) is
treated as the UTC offset `"+00:00"`, the result is parsed as an ISO-8601
timestamp, a naive timestamp is assumed UTC and the result is normalized to
UTC.  Used to state claim C2 as a refinement. -/
def spec_parse_utc (value : Option String) (field : String) (required : Bool) :
    Except HErr (Option Int) :=
  match value with
  | none =>
    if required then .error ⟨400, field ++ " is required"⟩ else .ok none
  | some v =>
    if v = "" then
      if required then .error ⟨400, field ++ " is required"⟩ else .ok none
    else
      let t := pyStrip v.data
      let core := if t.getLast? = some 'Z' then t.dropLast ++ plus0000 else t
      match pyFromisoList core with
      | some p => .ok (some (utcInstantOfParsed p))
      | none => .error ⟨400, "Invalid " ++ field ++ " format"⟩

/-! ## `datetime.isoformat` for UTC datetimes -/

/-- Days in year `y` (366 in a leap year). -/
def daysInYear (y : Nat) : Nat := if isLeap y then 366 else 365

/-- Peel whole years off a day count, starting at year `y`: returns the year
reached and the remaining days.  `fuel` bounds the number of steps. -/
def yearPeel : Nat → Nat → Nat → Nat × Nat
  | 0, y, n => (y, n)
  | fuel + 1, y, n =>
    if daysInYear y ≤ n then yearPeel fuel (y + 1) (n - daysInYear y) else (y, n)

/-- Peel whole months (of year `y`) off a day count, starting at month `m`. -/
def monthPeel : Nat → Nat → Nat → Nat → Nat × Nat
  | 0, _, m, n => (m, n)
  | fuel + 1, y, m, n =>
    if daysInMonth y m ≤ n then monthPeel fuel y (m + 1) (n - daysInMonth y m) else (m, n)

/-- Calendar date of a zero-based day count from 0001-01-01. -/
def civilOfDays (n : Nat) : Nat × Nat × Nat :=
  let yp := yearPeel 9999 1 n
  let mp := monthPeel 11 yp.1 1 yp.2
  (yp.1, mp.1, mp.2 + 1)

/-- Calendar fields (with UTC offset) of a nonnegative UTC instant, as
`datetime.astimezone(timezone.utc)` computes them. -/
def pyDateTimeOfUtcInstant (i : Int) : PyDateTime :=
  let n := i.toNat
  let c := civilOfDays (n / usecPerDay)
  let rem := n % usecPerDay
  let secs := rem / 1000000
  ⟨c.1, c.2.1, c.2.2, secs / 3600, secs / 60 % 60, secs % 60, rem % 1000000, some 0⟩

/-- The decimal digit character for `n % 10`. -/
def digitChar (n : Nat) : Char := Char.ofNat (48 + n % 10)

/-- Two decimal digits, zero padded. -/
def pad2 (n : Nat) : List Char := [digitChar (n / 10), digitChar n]

/-- Four decimal digits, zero padded. -/
def pad4 (n : Nat) : List Char :=
  [digitChar (n / 1000), digitChar (n / 100), digitChar (n / 10), digitChar n]

/-- Six decimal digits, zero padded. -/
def pad6 (n : Nat) : List Char :=
  [digitChar (n / 100000), digitChar (n / 10000), digitChar (n / 1000),
   digitChar (n / 100), digitChar (n / 10), digitChar n]

/-- `datetime.isoformat()` on a UTC-aware datetime:
`YYYY-MM-DDTHH:MM:SS[.ffffff]+00:00`, the microseconds printed only when
nonzero. -/
def pyIsoformatUtc (i : Int) : String :=
  let p := pyDateTimeOfUtcInstant i
  ⟨pad4 p.year ++ '-' :: pad2 p.month ++ '-' :: pad2 p.day ++ 'T' :: pad2 p.hour ++
    ':' :: pad2 p.minute ++ ':' :: pad2 p.second ++
    (if p.usec = 0 then [] else '.' :: pad6 p.usec) ++ plus0000⟩

/-- The UTC instant denoted by an ISO timestamp string (absent offset read as
UTC), used to state the round-trip claim. -/
def denotedUtcInstant (s : String) : Option Int :=
  (pyFromisoList s.data).map utcInstantOfParsed

/-! ## The document store model -/

/-- A stored announcement document
`{_id, message, starts_at: instant|null, expires_at, created_at, updated_at}`.
The `_id` is the (lowercase hex) ObjectId string. -/
structure Announcement where
  _id : String
  message : String
  starts_at : Option Int
  expires_at : Int
  created_at : Int
  updated_at : Int
deriving Repr, DecidableEq

/-- The serialized (JSON) form of an announcement returned by the endpoints. -/
structure SerializedAnnouncement where
  id : String
  message : String
  starts_at : Option String
  expires_at : Option String
  created_at : Option String
  updated_at : Option String
deriving Repr, DecidableEq

/-- `_serialize_announcement`: identifier to string, each instant to its ISO
string or `null` when absent, message passed through verbatim.  (A Python
`datetime` is always truthy, so `x.isoformat() if x else None` is `Option.map`
on the stored value.) -/
def _serialize_announcement (doc : Announcement) : SerializedAnnouncement :=
  { id := doc._id
    message := doc.message
    starts_at := doc.starts_at.map pyIsoformatUtc
    expires_at := some (pyIsoformatUtc doc.expires_at)
    created_at := some (pyIsoformatUtc doc.created_at)
    updated_at := some (pyIsoformatUtc doc.updated_at) }

/-- `_require_signed_in_user`: 401 when the username is missing or empty
(falsy) or does not exist in the teachers collection. -/
def _require_signed_in_user (teachers : List String) (teacher_username : Option String) :
    Except HErr String :=
  match teacher_username with
  | none => .error ⟨401, "Authentication required"⟩
  | some u =>
    if u = "" then .error ⟨401, "Authentication required"⟩
    else if u ∈ teachers then .ok u
    else .error ⟨401, "Authentication required"⟩

/-- Hexadecimal digit test (`ObjectId` accepts both cases). -/
def isHexDig (c : Char) : Bool :=
  ('0' ≤ c && c ≤ '9') || ('a' ≤ c && c ≤ 'f') || ('A' ≤ c && c ≤ 'F')

/-- Lowercase a hexadecimal digit. -/
def hexLower (c : Char) : Char :=
  if 'A' ≤ c && c ≤ 'F' then Char.ofNat (c.toNat + 32) else c

/-- `ObjectId(s)`: a string is a valid ObjectId exactly when it is 24
hexadecimal digits; the stored id is its lowercase form. -/
def objectIdOfString (s : String) : Option String :=
  if s.data.length = 24 && s.data.all isHexDig then some ⟨s.data.map hexLower⟩ else none

/-- Mongo's `update_one`: apply `f` to the first element matching `p`. -/
def updateFirst (p : α → Bool) (f : α → α) : List α → List α
  | [] => []
  | x :: xs => if p x then f x :: xs else x :: updateFirst p f xs

/-- The active-announcements query:
`expires_at > now` and (`starts_at` is null or `starts_at <= now`). -/
def isActive (now : Int) (d : Announcement) : Bool :=
  decide (now < d.expires_at) &&
    (match d.starts_at with
     | none => true
     | some s => decide (s ≤ now))

/-- Ascending order on `expires_at` (`.sort("expires_at", 1)`). -/
def byExpiresAsc (a b : Announcement) : Prop := a.expires_at ≤ b.expires_at

/-- Descending order on `created_at` (`.sort("created_at", -1)`). -/
def byCreatedDesc (a b : Announcement) : Prop := b.created_at ≤ a.created_at

instance : DecidableRel byExpiresAsc := fun _ _ => inferInstanceAs (Decidable (_ ≤ _))

instance : DecidableRel byCreatedDesc := fun _ _ => inferInstanceAs (Decidable (_ ≤ _))

instance : IsTotal Announcement byExpiresAsc :=
  ⟨fun a b => le_total a.expires_at b.expires_at⟩

instance : IsTrans Announcement byExpiresAsc :=
  ⟨fun _ _ _ h h' => le_trans h h'⟩

instance : IsTotal Announcement byCreatedDesc :=
  ⟨fun a b => le_total b.created_at a.created_at⟩

instance : IsTrans Announcement byCreatedDesc :=
  ⟨fun _ _ _ h h' => le_trans h' h⟩

/-! ## Endpoints

Each endpoint takes the teachers collection, the announcements collection and
its request arguments (`now` stands for `datetime.now(timezone.utc)` at the
moment of the call, `newId` for the ObjectId the driver generates on insert).
Mutating endpoints return the resulting store together with the outcome. -/

/-- `GET /announcements` pre-serialization: the matching documents in query
order. -/
def activeDocs (store : List Announcement) (now : Int) : List Announcement :=
  (store.filter (isActive now)).insertionSort byExpiresAsc

/-- `GET /announcements`: all currently active announcements, ascending by
`expires_at`, serialized. -/
def get_active_announcements (store : List Announcement) (now : Int) :
    List SerializedAnnouncement :=
  (activeDocs store now).map _serialize_announcement

/-- `GET /announcements/manage` pre-serialization: every document, descending
by `created_at`. -/
def manageDocs (store : List Announcement) : List Announcement :=
  store.insertionSort byCreatedDesc

/-- `GET /announcements/manage`: every announcement for the signed-in user. -/
def list_announcements (teachers : List String) (store : List Announcement)
    (teacher_username : Option String) : Except HErr (List SerializedAnnouncement) :=
  match _require_signed_in_user teachers teacher_username with
  | .error e => .error e
  | .ok _ => .ok ((manageDocs store).map _serialize_announcement)

/-- `POST /announcements`: validate, insert, re-read, serialize. -/
def create_announcement (teachers : List String) (store : List Announcement)
    (message : String) (expires_at : String) (starts_at : Option String)
    (teacher_username : Option String) (now : Int) (newId : String) :
    List Announcement × Except HErr SerializedAnnouncement :=
  match _require_signed_in_user teachers teacher_username with
  | .error e => (store, .error e)
  | .ok _ =>
    let sanitized := pyStripString message
    if sanitized = "" then (store, .error ⟨400, "Message is required"⟩)
    else if 500 < sanitized.length then (store, .error ⟨400, "Message is too long"⟩)
    else
      match _to_utc_datetime starts_at "starts_at" false with
      | .error e => (store, .error e)
      | .ok parsedStarts =>
        match _to_utc_datetime (some expires_at) "expires_at" true with
        | .error e => (store, .error e)
        | .ok none =>
          -- unreachable: a required parse never returns an absent value
          -- (Python would raise comparing a datetime with None)
          (store, .error ⟨500, "Internal Server Error"⟩)
        | .ok (some parsedExpires) =>
          if (match parsedStarts with
              | some s => decide (parsedExpires ≤ s)
              | none => false) then
            (store, .error ⟨400, "Expiration must be after start date"⟩)
          else
            let doc : Announcement :=
              ⟨newId, sanitized, parsedStarts, parsedExpires, now, now⟩
            let store' := store ++ [doc]
            match store'.find? (fun d => d._id == newId) with
            | some created => (store', .ok (_serialize_announcement created))
            | none => (store', .error ⟨500, "Failed to create announcement"⟩)

/-- The `$set` document of `update_announcement`: replace `message`,
`starts_at`, `expires_at` and `updated_at`, leaving `_id` and `created_at`
untouched. -/
def applyUpdate (m : String) (sO : Option Int) (eI now : Int) (d : Announcement) :
    Announcement :=
  { d with message := m, starts_at := sO, expires_at := eI, updated_at := now }

/-- The store interaction of `update_announcement` once validation has passed:
parse the id, `$set` on the first match (`update_one`), check the match count,
re-read, serialize. -/
def updateTail (store : List Announcement) (announcement_id m : String)
    (sO : Option Int) (eI now : Int) :
    List Announcement × Except HErr SerializedAnnouncement :=
  match objectIdOfString announcement_id with
  | none => (store, .error ⟨400, "Invalid announcement id"⟩)
  | some oid =>
    let store' := updateFirst (fun d => d._id == oid) (applyUpdate m sO eI now) store
    if store.any (fun d => d._id == oid) then
      match store'.find? (fun d => d._id == oid) with
      | some updated => (store', .ok (_serialize_announcement updated))
      | none => (store', .error ⟨500, "Failed to update announcement"⟩)
    else (store', .error ⟨404, "Announcement not found"⟩)

/-- `PUT /announcements/{id}`: validate, `$set` on the first match, re-read,
serialize. -/
def update_announcement (teachers : List String) (store : List Announcement)
    (announcement_id : String) (message : String) (expires_at : String)
    (starts_at : Option String) (teacher_username : Option String) (now : Int) :
    List Announcement × Except HErr SerializedAnnouncement :=
  match _require_signed_in_user teachers teacher_username with
  | .error e => (store, .error e)
  | .ok _ =>
    let sanitized := pyStripString message
    if sanitized = "" then (store, .error ⟨400, "Message is required"⟩)
    else if 500 < sanitized.length then (store, .error ⟨400, "Message is too long"⟩)
    else
      match _to_utc_datetime starts_at "starts_at" false with
      | .error e => (store, .error e)
      | .ok parsedStarts =>
        match _to_utc_datetime (some expires_at) "expires_at" true with
        | .error e => (store, .error e)
        | .ok none => (store, .error ⟨500, "Internal Server Error"⟩)
        | .ok (some parsedExpires) =>
          if (match parsedStarts with
              | some s => decide (parsedExpires ≤ s)
              | none => false) then
            (store, .error ⟨400, "Expiration must be after start date"⟩)
          else updateTail store announcement_id sanitized parsedStarts parsedExpires now

/-- `DELETE /announcements/{id}`: validate the id, delete the first match. -/
def delete_announcement (teachers : List String) (store : List Announcement)
    (announcement_id : String) (teacher_username : Option String) :
    List Announcement × Except HErr String :=
  match _require_signed_in_user teachers teacher_username with
  | .error e => (store, .error e)
  | .ok _ =>
    match objectIdOfString announcement_id with
    | none => (store, .error ⟨400, "Invalid announcement id"⟩)
    | some oid =>
      let store' := store.eraseP (fun d => d._id == oid)
      if store.any (fun d => d._id == oid) then (store', .ok "Announcement deleted")
      else (store', .error ⟨404, "Announcement not found"⟩)

/-! ## Sample data used by the witness theorems -/

/-- A sample stored announcement. -/
def sampleDoc : Announcement :=
  ⟨"aaaaaaaaaaaaaaaaaaaaaaaa", "hello", none, 100, 5, 5⟩

/-- A second sample stored announcement, starting in the future of instant 20. -/
def sampleDoc2 : Announcement :=
  ⟨"bbbbbbbbbbbbbbbbbbbbbbbb", "later", some 50, 90, 7, 7⟩

/-! ## Helper lemmas about the store primitives -/

theorem updateFirst_of_forall_not {p : α → Bool} {f : α → α} :
    ∀ {l : List α}, (∀ x ∈ l, ¬p x = true) → updateFirst p f l = l
  | [], _ => rfl
  | x :: xs, h => by
    have hx : ¬p x = true := h x (by simp)
    simp only [updateFirst, if_neg hx]
    exact congrArg (x :: ·) (updateFirst_of_forall_not fun y hy => h y (by simp [hy]))

theorem updateFirst_append_cons {p : α → Bool} {f : α → α} {d : α} {post : List α} :
    ∀ {pre : List α}, (∀ x ∈ pre, ¬p x = true) → p d = true →
      updateFirst p f (pre ++ d :: post) = pre ++ f d :: post
  | [], _, hd => by simp [updateFirst, hd]
  | x :: xs, h, hd => by
    have hx : ¬p x = true := h x (by simp)
    simp only [List.cons_append, updateFirst, if_neg hx]
    exact congrArg (x :: ·) (updateFirst_append_cons (fun y hy => h y (by simp [hy])) hd)

theorem any_updateFirst {p : α → Bool} {f : α → α} (hpf : ∀ x, p (f x) = p x) :
    ∀ l : List α, (updateFirst p f l).any p = l.any p
  | [] => rfl
  | x :: xs => by
    by_cases hx : p x = true
    · simp [updateFirst, hx, hpf]
    · simp only [updateFirst, if_neg hx, List.any_cons, any_updateFirst hpf xs]

theorem find?_prefix_cons {p : α → Bool} {d : α} (post : List α) {pre : List α}
    (hpre : ∀ x ∈ pre, ¬p x = true) (hd : p d = true) :
    (pre ++ d :: post).find? p = some d := by
  rw [List.find?_append, List.find?_eq_none.mpr hpre, List.find?_cons_of_pos post hd]
  rfl

/-- The 401 returned whenever the principal cannot be resolved. -/
theorem auth_fail (teachers : List String) {tu : Option String}
    (h : tu = none ∨ tu = some "" ∨ ∃ u, tu = some u ∧ u ∉ teachers) :
    _require_signed_in_user teachers tu = .error ⟨401, "Authentication required"⟩ := by
  rcases h with h | h | ⟨u, h, hm⟩ <;> subst h
  · rfl
  · rfl
  · by_cases hu : u = ""
    · simp [_require_signed_in_user, hu]
    · simp [_require_signed_in_user, hu, hm]

/-! ## Claims about the read endpoints -/

/-- C3: `get_active_announcements` returns exactly the stored announcements
with `expires_at > now` and (`starts_at` absent or `starts_at <= now`): records
with a past `expires_at` or a future `starts_at` are excluded, and records with
`starts_at = null` and a future `expires_at` are included. -/
theorem claim_C3 (store : List Announcement) (now : Int) :
    (∀ d : Announcement, d ∈ activeDocs store now ↔
      d ∈ store ∧ now < d.expires_at ∧
        (d.starts_at = none ∨ ∃ s, d.starts_at = some s ∧ s ≤ now)) ∧
    get_active_announcements store now = (activeDocs store now).map _serialize_announcement := by
  refine ⟨fun d => ?_, rfl⟩
  unfold activeDocs
  rw [List.mem_insertionSort, List.mem_filter]
  unfold isActive
  cases h : d.starts_at with
  | none => simp [h]
  | some s => simp [h]

/-- C8: the active list is sorted ascending by `expires_at`; the manage list
contains every stored announcement and is sorted descending by `created_at`. -/
theorem claim_C8 (store : List Announcement) (now : Int) :
    List.Sorted byExpiresAsc (activeDocs store now) ∧
    List.Sorted byCreatedDesc (manageDocs store) ∧
    (∀ d, d ∈ manageDocs store ↔ d ∈ store) ∧
    (∀ (teachers : List String) (tu : Option String) (u : String),
      _require_signed_in_user teachers tu = .ok u →
      list_announcements teachers store tu =
        .ok ((manageDocs store).map _serialize_announcement)) := by
  refine ⟨List.sorted_insertionSort byExpiresAsc _,
          List.sorted_insertionSort byCreatedDesc _,
          fun d => by unfold manageDocs; exact List.mem_insertionSort byCreatedDesc, ?_⟩
  intro teachers tu u hu
  unfold list_announcements
  rw [hu]

/-- Witness for C8 at a concrete store and a signed-in teacher. -/
theorem claim_C8_witness :
    list_announcements ["alice"] [sampleDoc, sampleDoc2] (some "alice") =
      .ok ((manageDocs [sampleDoc, sampleDoc2]).map _serialize_announcement) :=
  (claim_C8 [sampleDoc, sampleDoc2] 0).2.2.2 ["alice"] (some "alice") "alice" (by rfl)

/-! ## Claims about authentication -/

/-- C4: when the supplied `teacher_username` is missing (or empty, hence falsy)
or matches no teacher record, every one of the four authenticated endpoints
fails with 401 and leaves the store unchanged, whatever the rest of the
payload. -/
theorem claim_C4 (teachers : List String) (store : List Announcement) (tu : Option String)
    (h : tu = none ∨ tu = some "" ∨ ∃ u, tu = some u ∧ u ∉ teachers) :
    list_announcements teachers store tu = .error ⟨401, "Authentication required"⟩ ∧
    (∀ (message expires_at : String) (starts_at : Option String) (now : Int) (newId : String),
      create_announcement teachers store message expires_at starts_at tu now newId =
        (store, .error ⟨401, "Authentication required"⟩)) ∧
    (∀ (announcement_id message expires_at : String) (starts_at : Option String) (now : Int),
      update_announcement teachers store announcement_id message expires_at starts_at tu now =
        (store, .error ⟨401, "Authentication required"⟩)) ∧
    (∀ announcement_id : String,
      delete_announcement teachers store announcement_id tu =
        (store, .error ⟨401, "Authentication required"⟩)) := by
  have ha := auth_fail teachers h
  refine ⟨?_, fun m e s n i => ?_, fun a m e s n => ?_, fun a => ?_⟩
  · unfold list_announcements
    rw [ha]
  · unfold create_announcement
    rw [ha]
  · unfold update_announcement
    rw [ha]
  · unfold delete_announcement
    rw [ha]

/-- Witness for C4: a delete with no username is rejected with 401. -/
theorem claim_C4_witness :
    delete_announcement ["alice"] [sampleDoc] "aaaaaaaaaaaaaaaaaaaaaaaa" none =
      ([sampleDoc], .error ⟨401, "Authentication required"⟩) :=
  (claim_C4 ["alice"] [sampleDoc] none (Or.inl rfl)).2.2.2 "aaaaaaaaaaaaaaaaaaaaaaaa"

/-! ## Reduction lemmas for the write endpoints -/

/-- Evaluation of a fully valid `create_announcement` call: the trimmed message
and parsed instants are stamped with `created_at = updated_at = now`, the
document is appended, re-read and serialized. -/
theorem create_ok {teachers : List String} {store : List Announcement}
    {msg expStr : String} {stStr : Option String} {tu : Option String}
    {now : Int} {newId : String} {u : String} {sO : Option Int} {eI : Int}
    (hu : _require_signed_in_user teachers tu = .ok u)
    (hm1 : ¬pyStripString msg = "") (hm2 : (pyStripString msg).length ≤ 500)
    (hs : _to_utc_datetime stStr "starts_at" false = .ok sO)
    (he : _to_utc_datetime (some expStr) "expires_at" true = .ok (some eI))
    (hw : ∀ s, sO = some s → s < eI)
    (hfresh : ∀ d ∈ store, d._id ≠ newId) :
    create_announcement teachers store msg expStr stStr tu now newId =
      (store ++ [⟨newId, pyStripString msg, sO, eI, now, now⟩],
       .ok (_serialize_announcement ⟨newId, pyStripString msg, sO, eI, now, now⟩)) := by
  have hfind : (store ++ [(⟨newId, pyStripString msg, sO, eI, now, now⟩ : Announcement)]).find?
      (fun d => d._id == newId) = some ⟨newId, pyStripString msg, sO, eI, now, now⟩ :=
    find?_prefix_cons [] (fun x hx => by simp [hfresh x hx]) (beq_self_eq_true newId)
  unfold create_announcement
  rw [hu]
  cases sO with
  | none =>
    simp only [hs, he, if_neg hm1, if_neg (not_lt.mpr hm2), hfind, Bool.false_eq_true, if_false]
  | some s =>
    have hlt : ¬eI ≤ s := not_le.mpr (hw s rfl)
    simp only [hs, he, if_neg hm1, if_neg (not_lt.mpr hm2), decide_eq_false hlt, hfind,
      Bool.false_eq_true, if_false]

/-- Evaluation of a fully valid `update_announcement` call on a store holding a
matching document: exactly `message`, `starts_at`, `expires_at`, `updated_at`
of the first match are replaced. -/
theorem updateTail_ok {store : List Announcement} {annId m : String}
    {sO : Option Int} {eI now : Int} {oid : String}
    {pre post : List Announcement} {d : Announcement}
    (hoid : objectIdOfString annId = some oid)
    (hst : store = pre ++ d :: post)
    (hpre : ∀ x ∈ pre, x._id ≠ oid)
    (hd : d._id = oid) :
    updateTail store annId m sO eI now =
      (pre ++ applyUpdate m sO eI now d :: post,
       .ok (_serialize_announcement (applyUpdate m sO eI now d))) := by
  have hpre' : ∀ x ∈ pre, ¬(x._id == oid) = true := fun x hx => by simp [hpre x hx]
  have hdT : (d._id == oid) = true := beq_iff_eq.mpr hd
  have hupd : updateFirst (fun x => x._id == oid) (applyUpdate m sO eI now) store =
      pre ++ applyUpdate m sO eI now d :: post := by
    rw [hst]; exact updateFirst_append_cons hpre' hdT
  have hany : store.any (fun x => x._id == oid) = true := by
    rw [hst, List.any_eq_true]
    exact ⟨d, by simp, hdT⟩
  have hfind : (pre ++ applyUpdate m sO eI now d :: post).find?
      (fun x => x._id == oid) = some (applyUpdate m sO eI now d) :=
    find?_prefix_cons post hpre' (by simpa [applyUpdate] using hdT)
  unfold updateTail
  rw [hoid]
  simp only [hupd, hany, hfind, if_true]

/-- Whatever the outcome, `updateTail` returns the store unchanged on every
error (the `$set` matched nothing on the 404 path), and its error is one of
the three known ones, the invalid-id one only for an unparsable id. -/
theorem updateTail_error_facts {store : List Announcement} {annId m : String}
    {sO : Option Int} {eI now : Int} {e : HErr}
    (h : (updateTail store annId m sO eI now).2 = .error e) :
    (updateTail store annId m sO eI now).1 = store ∧
    ((e = ⟨400, "Invalid announcement id"⟩ ∧ objectIdOfString annId = none) ∨
      e = ⟨404, "Announcement not found"⟩ ∨
      e = ⟨500, "Failed to update announcement"⟩) := by
  unfold updateTail at h ⊢
  revert h
  cases hO : objectIdOfString annId with
  | none =>
    intro h
    exact ⟨rfl, Or.inl ⟨(Except.error.inj h).symm, rfl⟩⟩
  | some oid =>
    intro h
    dsimp only at h ⊢
    by_cases hany : store.any (fun d => d._id == oid) = true
    · rw [if_pos hany] at h ⊢
      cases hf : (updateFirst (fun d => d._id == oid) (applyUpdate m sO eI now) store).find?
          (fun d => d._id == oid) with
      | none =>
        have hsome : ((updateFirst (fun d => d._id == oid) (applyUpdate m sO eI now)
            store).find? (fun d => d._id == oid)).isSome = true := by
          rw [List.find?_isSome, ← List.any_eq_true,
            any_updateFirst (p := fun d : Announcement => d._id == oid)
              (f := applyUpdate m sO eI now) (fun x => rfl) store, hany]
        rw [hf] at hsome
        exact absurd hsome (by simp)
      | some upd =>
        rw [hf] at h
        exact absurd h (by simp)
    · have hanyf : store.any (fun d => d._id == oid) = false := eq_false_of_ne_true hany
      rw [if_neg hany] at h ⊢
      refine ⟨updateFirst_of_forall_not (List.any_eq_false.mp hanyf), Or.inr (Or.inl ?_)⟩
      exact (Except.error.inj h).symm

theorem update_ok {teachers : List String} {store : List Announcement}
    {annId msg expStr : String} {stStr : Option String} {tu : Option String}
    {now : Int} {u : String} {sO : Option Int} {eI : Int} {oid : String}
    {pre post : List Announcement} {d : Announcement}
    (hu : _require_signed_in_user teachers tu = .ok u)
    (hm1 : ¬pyStripString msg = "") (hm2 : (pyStripString msg).length ≤ 500)
    (hs : _to_utc_datetime stStr "starts_at" false = .ok sO)
    (he : _to_utc_datetime (some expStr) "expires_at" true = .ok (some eI))
    (hw : ∀ s, sO = some s → s < eI)
    (hoid : objectIdOfString annId = some oid)
    (hst : store = pre ++ d :: post)
    (hpre : ∀ x ∈ pre, x._id ≠ oid)
    (hd : d._id = oid) :
    update_announcement teachers store annId msg expStr stStr tu now =
      (pre ++ applyUpdate (pyStripString msg) sO eI now d :: post,
       .ok (_serialize_announcement (applyUpdate (pyStripString msg) sO eI now d))) := by
  unfold update_announcement
  rw [hu]
  cases sO with
  | none =>
    simp only [hs, he, if_neg hm1, if_neg (not_lt.mpr hm2), Bool.false_eq_true, if_false]
    exact updateTail_ok hoid hst hpre hd
  | some s =>
    have hlt : ¬eI ≤ s := not_le.mpr (hw s rfl)
    simp only [hs, he, if_neg hm1, if_neg (not_lt.mpr hm2), decide_eq_false hlt,
      Bool.false_eq_true, if_false]
    exact updateTail_ok hoid hst hpre hd

/-- Every error of `_to_utc_datetime` is the required-field or the
invalid-format one. -/
theorem to_utc_error_shape {v : Option String} {f : String} {r : Bool} {e : HErr}
    (h : _to_utc_datetime v f r = .error e) :
    e = ⟨400, f ++ " is required"⟩ ∨ e = ⟨400, "Invalid " ++ f ++ " format"⟩ := by
  unfold _to_utc_datetime at h
  split at h
  · split at h
    · exact Or.inl (Except.error.inj h).symm
    · exact absurd h (by simp)
  · split at h
    · split at h
      · exact Or.inl (Except.error.inj h).symm
      · exact absurd h (by simp)
    · split at h
      · exact absurd h (by simp)
      · exact Or.inr (Except.error.inj h).symm

/-- An empty trimmed message is rejected by both write endpoints, before any
other validation. -/
theorem msg_empty_rejected (annId newId : String) {teachers : List String}
    {store : List Announcement} {msg expStr : String} {stStr : Option String}
    {tu : Option String} {now : Int} {u : String}
    (hu : _require_signed_in_user teachers tu = .ok u)
    (hm : pyStripString msg = "") :
    create_announcement teachers store msg expStr stStr tu now newId =
      (store, .error ⟨400, "Message is required"⟩) ∧
    update_announcement teachers store annId msg expStr stStr tu now =
      (store, .error ⟨400, "Message is required"⟩) := by
  constructor
  · unfold create_announcement
    rw [hu]
    simp [hm]
  · unfold update_announcement
    rw [hu]
    simp [hm]

/-- A trimmed message longer than 500 characters is rejected by both write
endpoints. -/
theorem msg_long_rejected (annId newId : String) {teachers : List String}
    {store : List Announcement} {msg expStr : String} {stStr : Option String}
    {tu : Option String} {now : Int} {u : String}
    (hu : _require_signed_in_user teachers tu = .ok u)
    (hm : 500 < (pyStripString msg).length) :
    create_announcement teachers store msg expStr stStr tu now newId =
      (store, .error ⟨400, "Message is too long"⟩) ∧
    update_announcement teachers store annId msg expStr stStr tu now =
      (store, .error ⟨400, "Message is too long"⟩) := by
  have hne : ¬pyStripString msg = "" := by
    intro h
    rw [h] at hm
    simp at hm
  constructor
  · unfold create_announcement
    rw [hu]
    simp only [if_neg hne, if_pos hm]
  · unfold update_announcement
    rw [hu]
    simp only [if_neg hne, if_pos hm]

/-- When both instants parse and the start is not before the expiration, both
write endpoints fail with the window error. -/
theorem window_rejected (annId newId : String) {teachers : List String}
    {store : List Announcement} {msg expStr : String} {stStr : Option String}
    {tu : Option String} {now : Int} {u : String} {sI eI : Int}
    (hu : _require_signed_in_user teachers tu = .ok u)
    (hm1 : ¬pyStripString msg = "") (hm2 : (pyStripString msg).length ≤ 500)
    (hs : _to_utc_datetime stStr "starts_at" false = .ok (some sI))
    (he : _to_utc_datetime (some expStr) "expires_at" true = .ok (some eI))
    (hge : eI ≤ sI) :
    create_announcement teachers store msg expStr stStr tu now newId =
      (store, .error ⟨400, "Expiration must be after start date"⟩) ∧
    update_announcement teachers store annId msg expStr stStr tu now =
      (store, .error ⟨400, "Expiration must be after start date"⟩) := by
  constructor
  · unfold create_announcement
    rw [hu]
    simp only [hs, he, if_neg hm1, if_neg (not_lt.mpr hm2), decide_eq_true hge, if_true]
  · unfold update_announcement
    rw [hu]
    simp only [hs, he, if_neg hm1, if_neg (not_lt.mpr hm2), decide_eq_true hge, if_true]

/-- When the parsed window is valid, `create_announcement` never returns the
window error (it succeeds or reports the re-read failure). -/
theorem create_not_window_error {teachers : List String} {store : List Announcement}
    {msg expStr : String} {stStr : Option String} {tu : Option String}
    {now : Int} {newId : String} {u : String} {sO : Option Int} {eI : Int}
    (hu : _require_signed_in_user teachers tu = .ok u)
    (hm1 : ¬pyStripString msg = "") (hm2 : (pyStripString msg).length ≤ 500)
    (hs : _to_utc_datetime stStr "starts_at" false = .ok sO)
    (he : _to_utc_datetime (some expStr) "expires_at" true = .ok (some eI))
    (hw : ∀ s, sO = some s → s < eI) :
    ∃ out, (create_announcement teachers store msg expStr stStr tu now newId).2 = .ok out := by
  unfold create_announcement
  rw [hu]
  cases sO with
  | none =>
    simp only [hs, he, if_neg hm1, if_neg (not_lt.mpr hm2), Bool.false_eq_true, if_false]
    cases hf : (store ++ [(⟨newId, pyStripString msg, none, eI, now, now⟩ : Announcement)]).find?
        (fun d => d._id == newId) with
    | none =>
      have : ((store ++ [(⟨newId, pyStripString msg, none, eI, now, now⟩ : Announcement)]).find?
          (fun d => d._id == newId)).isSome = true :=
        List.find?_isSome.mpr ⟨⟨newId, pyStripString msg, none, eI, now, now⟩, by simp,
          beq_self_eq_true newId⟩
      rw [hf] at this
      exact absurd this (by simp)
    | some created => exact ⟨_, rfl⟩
  | some s =>
    have hlt : ¬eI ≤ s := not_le.mpr (hw s rfl)
    simp only [hs, he, if_neg hm1, if_neg (not_lt.mpr hm2), decide_eq_false hlt,
      Bool.false_eq_true, if_false]
    cases hf : (store ++ [(⟨newId, pyStripString msg, some s, eI, now, now⟩ : Announcement)]).find?
        (fun d => d._id == newId) with
    | none =>
      have : ((store ++ [(⟨newId, pyStripString msg, some s, eI, now, now⟩ : Announcement)]).find?
          (fun d => d._id == newId)).isSome = true :=
        List.find?_isSome.mpr ⟨⟨newId, pyStripString msg, some s, eI, now, now⟩, by simp,
          beq_self_eq_true newId⟩
      rw [hf] at this
      exact absurd this (by simp)
    | some created => exact ⟨_, rfl⟩

/-- When the parsed window is valid, `update_announcement` never returns the
window error. -/
theorem update_not_window_error {teachers : List String} {store : List Announcement}
    {annId msg expStr : String} {stStr : Option String} {tu : Option String}
    {now : Int} {u : String} {sO : Option Int} {eI : Int}
    (hu : _require_signed_in_user teachers tu = .ok u)
    (hm1 : ¬pyStripString msg = "") (hm2 : (pyStripString msg).length ≤ 500)
    (hs : _to_utc_datetime stStr "starts_at" false = .ok sO)
    (he : _to_utc_datetime (some expStr) "expires_at" true = .ok (some eI))
    (hw : ∀ s, sO = some s → s < eI) :
    (update_announcement teachers store annId msg expStr stStr tu now).2 ≠
      .error ⟨400, "Expiration must be after start date"⟩ := by
  have main : (updateTail store annId (pyStripString msg) sO eI now).2 ≠
      .error ⟨400, "Expiration must be after start date"⟩ := by
    intro hcontra
    rcases (updateTail_error_facts hcontra).2 with ⟨he', _⟩ | he' | he' <;>
      exact absurd he' (by decide)
  unfold update_announcement
  rw [hu]
  cases sO with
  | none =>
    simp only [hs, he, if_neg hm1, if_neg (not_lt.mpr hm2), Bool.false_eq_true, if_false]
    exact main
  | some s =>
    have hlt : ¬eI ≤ s := not_le.mpr (hw s rfl)
    simp only [hs, he, if_neg hm1, if_neg (not_lt.mpr hm2), decide_eq_false hlt,
      Bool.false_eq_true, if_false]
    exact main

/-! ## Claims about the write endpoints -/

/-- C1: for a signed-in principal with a valid message, when both `starts_at`
and `expires_at` parse, create and update fail with
400 "Expiration must be after start date" exactly when
`starts_at >= expires_at`; with `starts_at` absent no window check is applied
and a successfully parsed `expires_at` is accepted. -/
theorem claim_C1 (teachers : List String) (store : List Announcement)
    (msg expStr stStr annId : String) (tu : Option String) (now : Int)
    (newId u : String) (sI eI : Int)
    (hu : _require_signed_in_user teachers tu = .ok u)
    (hm1 : ¬pyStripString msg = "") (hm2 : (pyStripString msg).length ≤ 500)
    (hs : _to_utc_datetime (some stStr) "starts_at" false = .ok (some sI))
    (he : _to_utc_datetime (some expStr) "expires_at" true = .ok (some eI)) :
    ((create_announcement teachers store msg expStr (some stStr) tu now newId).2 =
        .error ⟨400, "Expiration must be after start date"⟩ ↔ eI ≤ sI) ∧
    ((update_announcement teachers store annId msg expStr (some stStr) tu now).2 =
        .error ⟨400, "Expiration must be after start date"⟩ ↔ eI ≤ sI) ∧
    (∃ out, (create_announcement teachers store msg expStr none tu now newId).2 = .ok out) ∧
    (update_announcement teachers store annId msg expStr none tu now).2 ≠
      .error ⟨400, "Expiration must be after start date"⟩ := by
  have habs : _to_utc_datetime none "starts_at" false = .ok none := rfl
  refine ⟨⟨fun h => ?_, fun hge => by
            rw [(window_rejected annId newId hu hm1 hm2 hs he hge).1]⟩,
          ⟨fun h => ?_, fun hge => by
            rw [(window_rejected annId newId hu hm1 hm2 hs he hge).2]⟩,
          create_not_window_error hu hm1 hm2 habs he (fun s h => Option.noConfusion h),
          update_not_window_error hu hm1 hm2 habs he (fun s h => Option.noConfusion h)⟩
  · by_contra hlt
    have hw : ∀ s, (some sI : Option Int) = some s → s < eI := by
      intro s hs'
      cases hs'
      exact lt_of_not_le hlt
    obtain ⟨out, hout⟩ := create_not_window_error hu hm1 hm2 hs he hw
    rw [hout] at h
    exact Except.noConfusion h
  · by_contra hlt
    have hw : ∀ s, (some sI : Option Int) = some s → s < eI := by
      intro s hs'
      cases hs'
      exact lt_of_not_le hlt
    exact update_not_window_error hu hm1 hm2 hs he hw h

/-- Witness for C1: swapped start and expiration instants are rejected. -/
theorem claim_C1_witness :
    (create_announcement ["alice"] [] "hi" "2025-01-01T00:00:00Z"
        (some "2025-01-02T00:00:00Z") (some "alice") 0 "cccccccccccccccccccccccc").2 =
      .error ⟨400, "Expiration must be after start date"⟩ :=
  (claim_C1 ["alice"] [] "hi" "2025-01-01T00:00:00Z" "2025-01-02T00:00:00Z"
      "aaaaaaaaaaaaaaaaaaaaaaaa" (some "alice") 0 "cccccccccccccccccccccccc" "alice"
      (utcInstantOfParsed ⟨2025, 1, 2, 0, 0, 0, 0, some 0⟩)
      (utcInstantOfParsed ⟨2025, 1, 1, 0, 0, 0, 0, some 0⟩)
      (by decide) (by decide) (by decide) (by decide) (by decide)).1.mpr (by decide)

/-- C5: both write endpoints trim the message, reject an empty trim and a trim
longer than 500 characters with 400, and accept up to 500 characters, storing
the trimmed message. -/
theorem claim_C5 (teachers : List String) (store : List Announcement)
    (msg expStr annId : String) (stStr tu : Option String) (now : Int) (newId u : String)
    (hu : _require_signed_in_user teachers tu = .ok u) :
    (pyStripString msg = "" →
      create_announcement teachers store msg expStr stStr tu now newId =
        (store, .error ⟨400, "Message is required"⟩) ∧
      update_announcement teachers store annId msg expStr stStr tu now =
        (store, .error ⟨400, "Message is required"⟩)) ∧
    (500 < (pyStripString msg).length →
      create_announcement teachers store msg expStr stStr tu now newId =
        (store, .error ⟨400, "Message is too long"⟩) ∧
      update_announcement teachers store annId msg expStr stStr tu now =
        (store, .error ⟨400, "Message is too long"⟩)) ∧
    (∀ (sO : Option Int) (eI : Int),
      ¬pyStripString msg = "" → (pyStripString msg).length ≤ 500 →
      _to_utc_datetime stStr "starts_at" false = .ok sO →
      _to_utc_datetime (some expStr) "expires_at" true = .ok (some eI) →
      (∀ s, sO = some s → s < eI) →
      (∀ d ∈ store, d._id ≠ newId) →
      create_announcement teachers store msg expStr stStr tu now newId =
        (store ++ [⟨newId, pyStripString msg, sO, eI, now, now⟩],
         .ok (_serialize_announcement ⟨newId, pyStripString msg, sO, eI, now, now⟩))) ∧
    (∀ (sO : Option Int) (eI : Int) (oid : String) (pre post : List Announcement)
        (d : Announcement),
      ¬pyStripString msg = "" → (pyStripString msg).length ≤ 500 →
      _to_utc_datetime stStr "starts_at" false = .ok sO →
      _to_utc_datetime (some expStr) "expires_at" true = .ok (some eI) →
      (∀ s, sO = some s → s < eI) →
      objectIdOfString annId = some oid →
      store = pre ++ d :: post → (∀ x ∈ pre, x._id ≠ oid) → d._id = oid →
      ∃ out, (update_announcement teachers store annId msg expStr stStr tu now).2 = .ok out ∧
        out.message = pyStripString msg) := by
  refine ⟨fun hm => msg_empty_rejected annId newId hu hm,
          fun hm => msg_long_rejected annId newId hu hm,
          fun sO eI hm1 hm2 hs he hw hfresh => create_ok hu hm1 hm2 hs he hw hfresh,
          fun sO eI oid pre post d hm1 hm2 hs he hw hoid hst hpre hd => ?_⟩
  exact ⟨_, by rw [update_ok hu hm1 hm2 hs he hw hoid hst hpre hd], rfl⟩

/-- Witness for C5: a padded two-character message is trimmed and stored. -/
theorem claim_C5_witness :
    create_announcement ["alice"] [] "  hi  " "2025-01-02T00:00:00Z" none
        (some "alice") 0 "cccccccccccccccccccccccc" =
      ([⟨"cccccccccccccccccccccccc", pyStripString "  hi  ", none,
          utcInstantOfParsed ⟨2025, 1, 2, 0, 0, 0, 0, some 0⟩, 0, 0⟩],
       .ok (_serialize_announcement ⟨"cccccccccccccccccccccccc", pyStripString "  hi  ", none,
          utcInstantOfParsed ⟨2025, 1, 2, 0, 0, 0, 0, some 0⟩, 0, 0⟩)) :=
  (claim_C5 ["alice"] [] "  hi  " "2025-01-02T00:00:00Z" "aaaaaaaaaaaaaaaaaaaaaaaa"
      none (some "alice") 0 "cccccccccccccccccccccccc" "alice" (by decide)).2.2.1
    none (utcInstantOfParsed ⟨2025, 1, 2, 0, 0, 0, 0, some 0⟩)
    (by decide) (by decide) (by decide) (by decide)
    (fun s h => Option.noConfusion h) (fun d hd => absurd hd (List.not_mem_nil d))

/-- C6: a matched update replaces exactly `message`, `starts_at`, `expires_at`
and `updated_at` of the first matching record, with `_id` and `created_at`
untouched; every failing update leaves the store unchanged (replace-all or
fail, no partial application). -/
theorem claim_C6 :
    (∀ (teachers : List String) (store : List Announcement) (annId msg expStr : String)
        (stStr tu : Option String) (now : Int) (u : String) (sO : Option Int) (eI : Int)
        (oid : String) (pre post : List Announcement) (d : Announcement),
      _require_signed_in_user teachers tu = .ok u →
      ¬pyStripString msg = "" → (pyStripString msg).length ≤ 500 →
      _to_utc_datetime stStr "starts_at" false = .ok sO →
      _to_utc_datetime (some expStr) "expires_at" true = .ok (some eI) →
      (∀ s, sO = some s → s < eI) →
      objectIdOfString annId = some oid →
      store = pre ++ d :: post → (∀ x ∈ pre, x._id ≠ oid) → d._id = oid →
      update_announcement teachers store annId msg expStr stStr tu now =
        (pre ++ applyUpdate (pyStripString msg) sO eI now d :: post,
         .ok (_serialize_announcement (applyUpdate (pyStripString msg) sO eI now d)))) ∧
    (∀ (teachers : List String) (store : List Announcement) (annId msg expStr : String)
        (stStr tu : Option String) (now : Int) (e : HErr),
      (update_announcement teachers store annId msg expStr stStr tu now).2 = .error e →
      (update_announcement teachers store annId msg expStr stStr tu now).1 = store) := by
  refine ⟨fun teachers store annId msg expStr stStr tu now u sO eI oid pre post d
      hu hm1 hm2 hs he hw hoid hst hpre hd => update_ok hu hm1 hm2 hs he hw hoid hst hpre hd,
    fun teachers store annId msg expStr stStr tu now e => ?_⟩
  unfold update_announcement
  revert e
  cases hau : _require_signed_in_user teachers tu with
  | error e' => intro e h; rfl
  | ok u =>
    intro e
    by_cases hm : pyStripString msg = ""
    · intro h
      simp [hm]
    · rw [if_neg hm]
      by_cases hl : 500 < (pyStripString msg).length
      · intro h
        simp [hl]
      · rw [if_neg hl]
        cases hsO : _to_utc_datetime stStr "starts_at" false with
        | error e1 => intro h; rfl
        | ok sO =>
          cases heO : _to_utc_datetime (some expStr) "expires_at" true with
          | error e2 => intro h; rfl
          | ok eO =>
            cases eO with
            | none => intro h; rfl
            | some eI =>
              cases sO with
              | none =>
                intro h
                dsimp only at h ⊢
                exact (updateTail_error_facts h).1
              | some s =>
                cases hdec : decide (eI ≤ s) with
                | true =>
                  intro h
                  simp only [hdec, if_true]
                | false =>
                  intro h
                  simp only [hdec, Bool.false_eq_true, if_false] at h ⊢
                  exact (updateTail_error_facts h).1

/-- Witness for C6: a concrete matched update rewrites the single stored
document in place. -/
theorem claim_C6_witness :
    update_announcement ["alice"] [sampleDoc] "aaaaaaaaaaaaaaaaaaaaaaaa" " new text "
        "2025-01-02T00:00:00Z" none (some "alice") 42 =
      ([applyUpdate (pyStripString " new text ") none
          (utcInstantOfParsed ⟨2025, 1, 2, 0, 0, 0, 0, some 0⟩) 42 sampleDoc],
       .ok (_serialize_announcement (applyUpdate (pyStripString " new text ") none
          (utcInstantOfParsed ⟨2025, 1, 2, 0, 0, 0, 0, some 0⟩) 42 sampleDoc))) :=
  claim_C6.1 ["alice"] [sampleDoc] "aaaaaaaaaaaaaaaaaaaaaaaa" " new text "
    "2025-01-02T00:00:00Z" none (some "alice") 42 "alice" none
    (utcInstantOfParsed ⟨2025, 1, 2, 0, 0, 0, 0, some 0⟩) "aaaaaaaaaaaaaaaaaaaaaaaa"
    [] [] sampleDoc (by decide) (by decide) (by decide) (by decide) (by decide)
    (fun s h => Option.noConfusion h) (by decide) rfl
    (fun x hx => absurd hx (List.not_mem_nil x)) (by decide)

/-- C10: update validates the id only after the payload: an invalid message or
timestamp fails with that validation error whatever the id, and the
"Invalid announcement id" error occurs only with the whole payload valid. -/
theorem claim_C10 (teachers : List String) (store : List Announcement)
    (annId msg expStr : String) (stStr tu : Option String) (now : Int) (u : String)
    (hu : _require_signed_in_user teachers tu = .ok u) :
    (pyStripString msg = "" →
      (update_announcement teachers store annId msg expStr stStr tu now).2 =
        .error ⟨400, "Message is required"⟩) ∧
    (500 < (pyStripString msg).length →
      (update_announcement teachers store annId msg expStr stStr tu now).2 =
        .error ⟨400, "Message is too long"⟩) ∧
    (∀ e1 : HErr, ¬pyStripString msg = "" → (pyStripString msg).length ≤ 500 →
      _to_utc_datetime stStr "starts_at" false = .error e1 →
      (update_announcement teachers store annId msg expStr stStr tu now).2 = .error e1) ∧
    (∀ (e2 : HErr) (sO : Option Int),
      ¬pyStripString msg = "" → (pyStripString msg).length ≤ 500 →
      _to_utc_datetime stStr "starts_at" false = .ok sO →
      _to_utc_datetime (some expStr) "expires_at" true = .error e2 →
      (update_announcement teachers store annId msg expStr stStr tu now).2 = .error e2) ∧
    ((update_announcement teachers store annId msg expStr stStr tu now).2 =
        .error ⟨400, "Invalid announcement id"⟩ →
      ¬pyStripString msg = "" ∧ (pyStripString msg).length ≤ 500 ∧
      ∃ (sO : Option Int) (eI : Int),
        _to_utc_datetime stStr "starts_at" false = .ok sO ∧
        _to_utc_datetime (some expStr) "expires_at" true = .ok (some eI) ∧
        (∀ s, sO = some s → s < eI) ∧
        objectIdOfString annId = none) := by
  refine ⟨fun hm => by rw [(msg_empty_rejected annId annId hu hm).2],
          fun hm => by rw [(msg_long_rejected annId annId hu hm).2],
          fun e1 hm1 hm2 h1 => ?_, fun e2 sO hm1 hm2 hs h2 => ?_, fun h => ?_⟩
  · unfold update_announcement
    rw [hu]
    simp only [if_neg hm1, if_neg (not_lt.mpr hm2), h1]
  · unfold update_announcement
    rw [hu]
    simp only [if_neg hm1, if_neg (not_lt.mpr hm2), hs, h2]
  · unfold update_announcement at h
    rw [hu] at h
    by_cases hm : pyStripString msg = ""
    · simp [hm] at h
    · rw [if_neg hm] at h
      by_cases hl : 500 < (pyStripString msg).length
      · simp [hl] at h
      · rw [if_neg hl] at h
        revert h
        cases hsO : _to_utc_datetime stStr "starts_at" false with
        | error e1 =>
          intro h
          have he1 := Except.error.inj h
          rcases to_utc_error_shape hsO with h' | h' <;> rw [he1] at h' <;>
            exact absurd h' (by decide)
        | ok sO =>
          cases heO : _to_utc_datetime (some expStr) "expires_at" true with
          | error e2 =>
            intro h
            have he2 := Except.error.inj h
            rcases to_utc_error_shape heO with h' | h' <;> rw [he2] at h' <;>
              exact absurd h' (by decide)
          | ok eO =>
            cases eO with
            | none =>
              intro h
              exact absurd (Except.error.inj h) (by decide)
            | some eI =>
              cases sO with
              | none =>
                intro h
                dsimp only at h
                rcases (updateTail_error_facts h).2 with ⟨-, hOnone⟩ | h' | h'
                · exact ⟨hm, not_lt.mp hl, none, eI, rfl, rfl,
                    fun s hs' => Option.noConfusion hs', hOnone⟩
                · exact absurd h' (by decide)
                · exact absurd h' (by decide)
              | some s =>
                cases hdec : decide (eI ≤ s) with
                | true =>
                  intro h
                  simp only [hdec, if_true] at h
                  exact absurd (Except.error.inj h) (by decide)
                | false =>
                  intro h
                  simp only [hdec, Bool.false_eq_true, if_false] at h
                  have hlt : s < eI := lt_of_not_le (of_decide_eq_false hdec)
                  rcases (updateTail_error_facts h).2 with ⟨-, hOnone⟩ | h' | h'
                  · refine ⟨hm, not_lt.mp hl, some s, eI, rfl, rfl, ?_, hOnone⟩
                    intro s' hs'
                    cases hs'
                    exact hlt
                  · exact absurd h' (by decide)
                  · exact absurd h' (by decide)

/-- Witness for C10: with a malformed id and an empty message, the message
error wins. -/
theorem claim_C10_witness :
    (update_announcement ["alice"] [sampleDoc] "not-an-objectid" "   "
        "2025-01-02T00:00:00Z" none (some "alice") 0).2 =
      .error ⟨400, "Message is required"⟩ :=
  (claim_C10 ["alice"] [sampleDoc] "not-an-objectid" "   " "2025-01-02T00:00:00Z"
      none (some "alice") 0 "alice" (by decide)).1 (by decide)

/-- C7: delete rejects a malformed id with 400 "Invalid announcement id",
returns 404 for a well-formed id matching no record, and removes a matching
record, acknowledging with "Announcement deleted". -/
theorem claim_C7 (teachers : List String) (store : List Announcement)
    (annId : String) (tu : Option String) (u : String)
    (hu : _require_signed_in_user teachers tu = .ok u) :
    (objectIdOfString annId = none →
      delete_announcement teachers store annId tu =
        (store, .error ⟨400, "Invalid announcement id"⟩)) ∧
    (∀ oid, objectIdOfString annId = some oid → (∀ d ∈ store, d._id ≠ oid) →
      delete_announcement teachers store annId tu =
        (store, .error ⟨404, "Announcement not found"⟩)) ∧
    (∀ (oid : String) (pre post : List Announcement) (d : Announcement),
      objectIdOfString annId = some oid →
      store = pre ++ d :: post → (∀ x ∈ pre, x._id ≠ oid) → d._id = oid →
      delete_announcement teachers store annId tu = (pre ++ post, .ok "Announcement deleted")) := by
  refine ⟨fun hO => ?_, fun oid hO hno => ?_, fun oid pre post d hO hst hpre hd => ?_⟩
  · unfold delete_announcement
    rw [hu, hO]
  · have hno' : ∀ d ∈ store, ¬(d._id == oid) = true := fun d hd => by simp [hno d hd]
    unfold delete_announcement
    rw [hu, hO]
    have hany : store.any (fun d => d._id == oid) = false := List.any_eq_false.mpr hno'
    simp only [List.eraseP_of_forall_not hno', hany, Bool.false_eq_true, if_false]
  · have hpre' : ∀ x ∈ pre, ¬(x._id == oid) = true := fun x hx => by simp [hpre x hx]
    have hdT : (d._id == oid) = true := beq_iff_eq.mpr hd
    unfold delete_announcement
    rw [hu, hO]
    have hany : store.any (fun x => x._id == oid) = true := by
      rw [hst, List.any_eq_true]
      exact ⟨d, by simp, hdT⟩
    have herase : store.eraseP (fun x => x._id == oid) = pre ++ post := by
      rw [hst, List.eraseP_append, if_neg (by rw [List.any_eq_false.mpr hpre']; simp),
        List.eraseP_cons_of_pos (p := fun x : Announcement => x._id == oid) hdT]
    simp only [herase, hany, if_true]

/-- Witness for C7: deleting the first sample document removes it. -/
theorem claim_C7_witness :
    delete_announcement ["alice"] [sampleDoc, sampleDoc2] "AAAAAAAAAAAAAAAAAAAAAAAA"
        (some "alice") = ([sampleDoc2], .ok "Announcement deleted") :=
  (claim_C7 ["alice"] [sampleDoc, sampleDoc2] "AAAAAAAAAAAAAAAAAAAAAAAA" (some "alice")
      "alice" (by decide)).2.2 "aaaaaaaaaaaaaaaaaaaaaaaa" [] [sampleDoc2] sampleDoc
    (by decide) rfl (fun x hx => absurd hx (List.not_mem_nil x)) (by decide)

/-! ## Claim C2: the replace-every-Z substitution against the trailing-Z reading -/

theorem replaceZ_append (xs ys : List Char) :
    replaceZ (xs ++ ys) = replaceZ xs ++ replaceZ ys := by
  induction xs with
  | nil => rfl
  | cons x xs ih => simp [replaceZ, ih, List.append_assoc]

theorem replaceZ_of_not_mem : ∀ {xs : List Char}, 'Z' ∉ xs → replaceZ xs = xs
  | [], _ => rfl
  | x :: xs, h => by
    have hx : ¬x = 'Z' := fun hc => h (hc ▸ List.mem_cons_self x xs)
    simp only [replaceZ, if_neg hx, List.singleton_append,
      replaceZ_of_not_mem (fun hm => h (List.mem_cons_of_mem x hm))]

theorem eq_dropLast_append_of_getLast? {l : List Char} {a : Char}
    (h : l.getLast? = some a) : l = l.dropLast ++ [a] := by
  have hne : l ≠ [] := by
    intro h0
    rw [h0] at h
    exact Option.noConfusion h
  have h2 := List.getLast?_eq_getLast l hne
  rw [h] at h2
  have h3 : a = l.getLast hne := Option.some.inj h2
  conv_lhs => rw [← List.dropLast_append_getLast hne]
  rw [← h3]

/-- On a character list whose only `'Z'` (if any) is the final character,
replacing every `"Z"` coincides with replacing a trailing `"Z"`. -/
theorem replaceZ_eq_core {t : List Char} (h : 'Z' ∉ t.dropLast) :
    replaceZ t = (if t.getLast? = some 'Z' then t.dropLast ++ plus0000 else t) := by
  by_cases hl : t.getLast? = some 'Z'
  · rw [if_pos hl]
    have hteq : t = t.dropLast ++ ['Z'] := eq_dropLast_append_of_getLast? hl
    conv_lhs => rw [hteq]
    rw [replaceZ_append, replaceZ_of_not_mem h]
    rfl
  · rw [if_neg hl]
    apply replaceZ_of_not_mem
    intro hmem
    cases htn : t.getLast? with
    | none =>
      rw [List.getLast?_eq_none_iff] at htn
      rw [htn] at hmem
      exact List.not_mem_nil 'Z' hmem
    | some c =>
      have hteq := eq_dropLast_append_of_getLast? htn
      rw [hteq] at hmem
      rcases List.mem_append.mp hmem with hm | hm
      · exact h hm
      · have hc : c = 'Z' := by
          rcases List.mem_cons.mp hm with h' | h'
          · exact h'.symm
          · exact absurd h' (List.not_mem_nil 'Z')
        rw [hc] at htn
        exact hl htn

/-- C2, corrected: the code does not treat only a trailing `"Z"` as the UTC
offset; it replaces every occurrence of `"Z"` with `"+00:00"` before parsing.
When the stripped value contains `'Z'` at most as its final character, the
parser behaves exactly as the specification describes (empty or missing input
rejected when required and absent otherwise, value trimmed, a trailing `"Z"`
read as the UTC offset, a naive timestamp assumed UTC, the result normalized
to UTC, and an unparsable value rejected with "Invalid (field) format", the
accepted timestamp grammar being the underlying parser's, which is more
liberal than strict ISO-8601).  An input with a non-trailing `'Z'` separates
the two readings (see the counterexample). -/
theorem claim_C2 (value : Option String) (field : String) (required : Bool)
    (h : ∀ v, value = some v → 'Z' ∉ (pyStrip v.data).dropLast) :
    _to_utc_datetime value field required = spec_parse_utc value field required := by
  cases value with
  | none => rfl
  | some v =>
    have hv' := h v rfl
    by_cases hv : v = ""
    · unfold _to_utc_datetime spec_parse_utc
      dsimp only
      rw [if_pos hv, if_pos hv]
    · unfold _to_utc_datetime spec_parse_utc
      dsimp only
      rw [if_neg hv, if_neg hv, replaceZ_eq_core hv']

/-- Counterexample to C2 as stated: CPython accepts any single character as
the date-time separator, so `"2025-01-01Z12:00"` parses under the
specification's trailing-Z reading, while the code's replace-every-Z mangles
it to `"2025-01-01+00:0012:00"`, which fails; and `"2025-01-01x12:00"` is
accepted by the code although it is not an ISO-8601 timestamp. -/
theorem claim_C2_counterexample :
    _to_utc_datetime (some "2025-01-01Z12:00") "expires_at" true ≠
      spec_parse_utc (some "2025-01-01Z12:00") "expires_at" true ∧
    _to_utc_datetime (some "2025-01-01Z12:00") "expires_at" true =
      .error ⟨400, "Invalid expires_at format"⟩ ∧
    spec_parse_utc (some "2025-01-01Z12:00") "expires_at" true =
      .ok (some (utcInstantOfParsed ⟨2025, 1, 1, 12, 0, 0, 0, none⟩)) ∧
    _to_utc_datetime (some "2025-01-01x12:00") "expires_at" true =
      .ok (some (utcInstantOfParsed ⟨2025, 1, 1, 12, 0, 0, 0, none⟩)) := by
  refine ⟨by decide, by decide, by decide, by decide⟩

/-- Witness for C2: a padded input with a single trailing `"Z"` is parsed
exactly as the specification describes. -/
theorem claim_C2_witness :
    _to_utc_datetime (some "  2025-06-15 07:08:09.5+01:02:03Z  ") "starts_at" false =
      spec_parse_utc (some "  2025-06-15 07:08:09.5+01:02:03Z  ") "starts_at" false :=
  claim_C2 (some "  2025-06-15 07:08:09.5+01:02:03Z  ") "starts_at" false
    (fun v hv => by cases hv; decide)

/-! ## Calendar correctness: printing reaches the same instant back -/

/-- Instants from 0001-01-01 up to this bound stay within years 1..9999
(Python's representable `datetime` range). -/
def maxInstant : Int := (daysBeforeYear 10000 * usecPerDay : Nat)

theorem digitChar_toNat (n : Nat) : (digitChar n).toNat = 48 + n % 10 := by
  have h : n % 10 < 10 := Nat.mod_lt _ (by decide)
  unfold digitChar
  set k := n % 10 with hk
  interval_cases k <;> rfl

theorem isDig_digitChar (n : Nat) : isDig (digitChar n) = true := by
  have h : n % 10 < 10 := Nat.mod_lt _ (by decide)
  simp only [isDig, digitChar_toNat, Bool.and_eq_true, decide_eq_true_eq]
  omega

theorem dval_digitChar (n : Nat) : dval (digitChar n) = n % 10 := by
  unfold dval
  rw [digitChar_toNat]
  omega

theorem pad2_val {n : Nat} (h : n ≤ 99) :
    10 * dval (digitChar (n / 10)) + dval (digitChar n) = n := by
  rw [dval_digitChar, dval_digitChar]
  omega

theorem pad4_val {n : Nat} (h : n ≤ 9999) :
    1000 * dval (digitChar (n / 1000)) + 100 * dval (digitChar (n / 100)) +
      10 * dval (digitChar (n / 10)) + dval (digitChar n) = n := by
  simp only [dval_digitChar]
  omega

theorem isLeap_iff (y : Nat) :
    isLeap y = true ↔ (y % 4 = 0 ∧ (y % 100 ≠ 0 ∨ y % 400 = 0)) := by
  simp [isLeap]

set_option maxHeartbeats 1000000 in
theorem leapsBefore_succ (k : Nat) :
    leapsBefore (k + 1) = leapsBefore k + (if isLeap (k + 1) then 1 else 0) := by
  unfold leapsBefore
  cases hL : isLeap (k + 1) with
  | true =>
    obtain ⟨l1, l2⟩ := (isLeap_iff (k + 1)).mp hL
    rw [if_pos rfl]
    omega
  | false =>
    have hnl : ¬((k + 1) % 4 = 0 ∧ ((k + 1) % 100 ≠ 0 ∨ (k + 1) % 400 = 0)) :=
      fun hc => by rw [(isLeap_iff (k + 1)).mpr hc] at hL; exact Bool.noConfusion hL
    rw [if_neg Bool.false_ne_true]
    omega

theorem daysBeforeYear_succ {y : Nat} (hy : 1 ≤ y) :
    daysBeforeYear (y + 1) = daysBeforeYear y + daysInYear y := by
  obtain ⟨k, rfl⟩ : ∃ k, y = k + 1 := ⟨y - 1, by omega⟩
  unfold daysBeforeYear daysInYear
  simp only [Nat.add_sub_cancel]
  rw [leapsBefore_succ k]
  cases hL : isLeap (k + 1) with
  | true =>
    rw [if_pos rfl, if_pos rfl]
    ring
  | false =>
    rw [if_neg Bool.false_ne_true, if_neg Bool.false_ne_true]
    ring

theorem daysBeforeYear_le {y z : Nat} (hy : 1 ≤ y) (h : y ≤ z) :
    daysBeforeYear y ≤ daysBeforeYear z := by
  induction z with
  | zero => omega
  | succ n ih =>
    rcases Nat.lt_or_ge y (n + 1) with h' | h'
    · have h1 : 1 ≤ n := by omega
      calc daysBeforeYear y ≤ daysBeforeYear n := ih (by omega)
        _ ≤ daysBeforeYear (n + 1) := by rw [daysBeforeYear_succ h1]; omega
    · have : y = n + 1 := by omega
      rw [this]

theorem yearPeel_spec : ∀ (fuel y n : Nat), 1 ≤ y →
    n + daysBeforeYear y < daysBeforeYear (y + fuel) →
    1 ≤ (yearPeel fuel y n).1 ∧
    daysBeforeYear (yearPeel fuel y n).1 + (yearPeel fuel y n).2 = daysBeforeYear y + n ∧
    (yearPeel fuel y n).2 < daysInYear (yearPeel fuel y n).1 := by
  intro fuel
  induction fuel with
  | zero =>
    intro y n hy hbound
    simp only [Nat.add_zero] at hbound
    omega
  | succ f ih =>
    intro y n hy hbound
    unfold yearPeel
    by_cases hge : daysInYear y ≤ n
    · rw [if_pos hge]
      have hsucc := daysBeforeYear_succ hy
      have hb2 : (n - daysInYear y) + daysBeforeYear (y + 1) < daysBeforeYear (y + 1 + f) := by
        rw [hsucc]
        have : y + 1 + f = y + (f + 1) := by ring
        rw [this]
        omega
      obtain ⟨h1, h2, h3⟩ := ih (y + 1) (n - daysInYear y) (by omega) hb2
      exact ⟨h1, by rw [h2, hsucc]; omega, h3⟩
    · rw [if_neg hge]
      dsimp only
      exact ⟨hy, rfl, by omega⟩

theorem daysBeforeMonth_succ {y m : Nat} (h1 : 1 ≤ m) (h2 : m ≤ 11) :
    daysBeforeMonth y (m + 1) = daysBeforeMonth y m + daysInMonth y m := by
  interval_cases m <;> cases hL : isLeap y <;>
    simp [daysBeforeMonth, daysInMonth, hL]

theorem daysBeforeMonth_year {y : Nat} :
    daysBeforeMonth y 12 + daysInMonth y 12 = daysInYear y := by
  cases hL : isLeap y <;> simp [daysBeforeMonth, daysInMonth, daysInYear, hL]

theorem monthPeel_spec : ∀ (fuel y m n : Nat), 1 ≤ m → m + fuel = 12 →
    n + daysBeforeMonth y m < daysInYear y →
    1 ≤ (monthPeel fuel y m n).1 ∧ (monthPeel fuel y m n).1 ≤ 12 ∧
    daysBeforeMonth y (monthPeel fuel y m n).1 + (monthPeel fuel y m n).2 =
      daysBeforeMonth y m + n ∧
    (monthPeel fuel y m n).2 < daysInMonth y (monthPeel fuel y m n).1 := by
  intro fuel
  induction fuel with
  | zero =>
    intro y m n hm hfuel hbound
    have hm12 : m = 12 := by omega
    subst hm12
    have := daysBeforeMonth_year (y := y)
    dsimp only [monthPeel]
    exact ⟨by omega, by omega, rfl, by omega⟩
  | succ f ih =>
    intro y m n hm hfuel hbound
    unfold monthPeel
    by_cases hge : daysInMonth y m ≤ n
    · rw [if_pos hge]
      have hsucc := daysBeforeMonth_succ (y := y) hm (by omega)
      have hb2 : (n - daysInMonth y m) + daysBeforeMonth y (m + 1) < daysInYear y := by
        rw [hsucc]
        omega
      obtain ⟨g1, g2, g3, g4⟩ := ih y (m + 1) (n - daysInMonth y m) (by omega) (by omega) hb2
      exact ⟨g1, g2, by rw [g3, hsucc]; omega, g4⟩
    · rw [if_neg hge]
      dsimp only
      exact ⟨hm, by omega, rfl, by omega⟩

/-- Correctness of `civilOfDays` on the representable range: it produces a
valid date whose ordinal is the input. -/
theorem civilOfDays_spec {n : Nat} (h : n < daysBeforeYear 10000) :
    1 ≤ (civilOfDays n).1 ∧ (civilOfDays n).1 ≤ 9999 ∧
    1 ≤ (civilOfDays n).2.1 ∧ (civilOfDays n).2.1 ≤ 12 ∧
    1 ≤ (civilOfDays n).2.2 ∧
    (civilOfDays n).2.2 ≤ daysInMonth (civilOfDays n).1 (civilOfDays n).2.1 ∧
    ordinal0 (civilOfDays n).1 (civilOfDays n).2.1 (civilOfDays n).2.2 = n := by
  have hb : n + daysBeforeYear 1 < daysBeforeYear (1 + 9999) := by
    have h1 : daysBeforeYear 1 = 0 := rfl
    have h2 : (1 + 9999 : Nat) = 10000 := rfl
    rw [h2]
    omega
  obtain ⟨y1, y2, y3⟩ := yearPeel_spec 9999 1 n (by omega) hb
  have hyle : (yearPeel 9999 1 n).1 ≤ 9999 := by
    by_contra hgt
    have : daysBeforeYear 10000 ≤ daysBeforeYear (yearPeel 9999 1 n).1 :=
      daysBeforeYear_le (by omega) (by omega)
    have h1 : daysBeforeYear 1 = 0 := rfl
    omega
  have hmb : (yearPeel 9999 1 n).2 + daysBeforeMonth (yearPeel 9999 1 n).1 1 <
      daysInYear (yearPeel 9999 1 n).1 := by
    have h0 : daysBeforeMonth (yearPeel 9999 1 n).1 1 = 0 := by
      simp [daysBeforeMonth]
    omega
  obtain ⟨m1, m2, m3, m4⟩ :=
    monthPeel_spec 11 (yearPeel 9999 1 n).1 1 (yearPeel 9999 1 n).2 (by omega) rfl hmb
  unfold civilOfDays
  dsimp only
  have h0 : daysBeforeMonth (yearPeel 9999 1 n).1 1 = 0 := by
    simp [daysBeforeMonth]
  have h1 : daysBeforeYear 1 = 0 := rfl
  refine ⟨y1, hyle, m1, m2, by omega, by omega, ?_⟩
  unfold ordinal0
  omega

theorem daysInMonth_le (y m : Nat) : daysInMonth y m ≤ 31 := by
  unfold daysInMonth
  split
  all_goals first
  | omega
  | (split <;> omega)

theorem parseOffset_plus0000 : parseOffset plus0000 = some (some 0) := by decide

theorem spanDigits_pad6 (us : Nat) :
    spanDigits (pad6 us ++ plus0000) =
      ([dval (digitChar (us / 100000)), dval (digitChar (us / 10000)),
        dval (digitChar (us / 1000)), dval (digitChar (us / 100)),
        dval (digitChar (us / 10)), dval (digitChar us)], plus0000) := by
  simp [pad6, plus0000, spanDigits, isDig_digitChar, show isDig '+' = false from rfl]

theorem parseFrac_pad6 {us : Nat} (h : us < 1000000) :
    parseFrac (pad6 us ++ plus0000) = some (us, some 0) := by
  unfold parseFrac
  rw [spanDigits_pad6]
  dsimp only
  have hlen : ([dval (digitChar (us / 100000)), dval (digitChar (us / 10000)),
      dval (digitChar (us / 1000)), dval (digitChar (us / 100)),
      dval (digitChar (us / 10)), dval (digitChar us)] : List Nat).length = 6 := rfl
  rw [hlen, if_pos (by decide), parseOffset_plus0000]
  have hv : fracVal [dval (digitChar (us / 100000)), dval (digitChar (us / 10000)),
      dval (digitChar (us / 1000)), dval (digitChar (us / 100)),
      dval (digitChar (us / 10)), dval (digitChar us)] = us := by
    simp only [fracVal, List.foldl, List.length_cons, List.length_nil, dval_digitChar]
    norm_num
    omega
  rw [Option.map_some', hv]

theorem parseSecTail_print {ss us : Nat} (hss : ss ≤ 59) (hus : us < 1000000) :
    parseSecTail (':' :: pad2 ss ++ ((if us = 0 then [] else '.' :: pad6 us) ++ plus0000)) =
      some (ss, us, some 0) := by
  have hv : 10 * dval (digitChar (ss / 10)) + dval (digitChar ss) = ss :=
    pad2_val (by omega)
  by_cases h0 : us = 0
  · subst h0
    rw [if_pos rfl]
    simp only [List.nil_append, pad2, List.cons_append]
    unfold parseSecTail
    simp only [isDig_digitChar, Bool.true_and, hv, decide_eq_true hss]
    rw [if_pos trivial]
    rfl
  · rw [if_neg h0]
    simp only [pad2, List.cons_append, List.nil_append]
    unfold parseSecTail
    simp only [isDig_digitChar, Bool.true_and, hv, decide_eq_true hss]
    rw [if_pos trivial]
    show Option.map (fun p => (ss, p.1, p.2)) (parseFrac (pad6 us ++ plus0000)) =
      some (ss, us, some 0)
    rw [parseFrac_pad6 hus]
    rfl

theorem parseTime_print {hh mi ss us : Nat} (hhh : hh ≤ 23) (hmi : mi ≤ 59)
    (hss : ss ≤ 59) (hus : us < 1000000) :
    parseTime (pad2 hh ++ ':' :: pad2 mi ++ ':' :: pad2 ss ++
      ((if us = 0 then [] else '.' :: pad6 us) ++ plus0000)) =
      some (hh, mi, ss, us, some 0) := by
  have hv1 : 10 * dval (digitChar (hh / 10)) + dval (digitChar hh) = hh :=
    pad2_val (by omega)
  have hv2 : 10 * dval (digitChar (mi / 10)) + dval (digitChar mi) = mi :=
    pad2_val (by omega)
  simp only [pad2, List.cons_append, List.nil_append]
  unfold parseTime
  simp only [isDig_digitChar, Bool.true_and, hv1, hv2, decide_eq_true hhh,
    decide_eq_true hmi, Bool.and_true]
  rw [if_pos trivial]
  show Option.map (fun p => (hh, mi, p.1, p.2.1, p.2.2))
      (parseSecTail (':' :: pad2 ss ++ ((if us = 0 then [] else '.' :: pad6 us) ++ plus0000))) =
    some (hh, mi, ss, us, some 0)
  rw [parseSecTail_print hss hus]
  rfl

theorem pyFromisoList_print {y mo dd hh mi ss us : Nat}
    (hy1 : 1 ≤ y) (hy2 : y ≤ 9999) (hmo1 : 1 ≤ mo) (hmo2 : mo ≤ 12)
    (hd1 : 1 ≤ dd) (hd2 : dd ≤ daysInMonth y mo)
    (hhh : hh ≤ 23) (hmi : mi ≤ 59) (hss : ss ≤ 59) (hus : us < 1000000) :
    pyFromisoList (pad4 y ++ ('-' :: (pad2 mo ++ ('-' :: (pad2 dd ++ ('T' ::
      (pad2 hh ++ (':' :: (pad2 mi ++ (':' :: (pad2 ss ++
        ((if us = 0 then [] else '.' :: pad6 us) ++ plus0000)))))))))))) =
      some ⟨y, mo, dd, hh, mi, ss, us, some 0⟩ := by
  have hv4 : 1000 * dval (digitChar (y / 1000)) + 100 * dval (digitChar (y / 100)) +
      10 * dval (digitChar (y / 10)) + dval (digitChar y) = y := pad4_val (by omega)
  have hvmo : 10 * dval (digitChar (mo / 10)) + dval (digitChar mo) = mo :=
    pad2_val (by omega)
  have hvdd : 10 * dval (digitChar (dd / 10)) + dval (digitChar dd) = dd :=
    pad2_val (by have := daysInMonth_le y mo; omega)
  simp only [pad4, pad2, List.cons_append, List.nil_append, List.append_assoc]
  unfold pyFromisoList
  simp only [isDig_digitChar, Bool.true_and, Bool.and_true]
  rw [if_pos trivial]
  rw [hv4, hvmo, hvdd]
  simp only [decide_eq_true hy1, decide_eq_true hmo1, decide_eq_true hmo2,
    decide_eq_true hd1, decide_eq_true hd2, Bool.true_and, Bool.and_true]
  rw [if_pos trivial]
  show Option.map (fun p => (⟨y, mo, dd, p.1, p.2.1, p.2.2.1, p.2.2.2.1, p.2.2.2.2⟩ :
      PyDateTime))
      (parseTime (pad2 hh ++ ':' :: pad2 mi ++ ':' :: pad2 ss ++
        ((if us = 0 then [] else '.' :: pad6 us) ++ plus0000))) =
    some ⟨y, mo, dd, hh, mi, ss, us, some 0⟩
  rw [parseTime_print hhh hmi hss hus]
  rfl

/-- Round trip: parsing the ISO string printed for a representable UTC instant
denotes that exact instant. -/
theorem denoted_iso_roundtrip {i : Int} (h0 : 0 ≤ i) (h1 : i < maxInstant) :
    denotedUtcInstant (pyIsoformatUtc i) = some i := by
  have hn : (i.toNat : Int) = i := Int.toNat_of_nonneg h0
  have hnlt : i.toNat < daysBeforeYear 10000 * usecPerDay := by
    have h2 : i < ((daysBeforeYear 10000 * usecPerDay : Nat) : Int) := h1
    omega
  have hdays : i.toNat / usecPerDay < daysBeforeYear 10000 :=
    (Nat.div_lt_iff_lt_mul (by decide : 0 < usecPerDay)).mpr hnlt
  obtain ⟨c1, c2, c3, c4, c5, c6, c7⟩ := civilOfDays_spec hdays
  have hrem : i.toNat % usecPerDay < 86400000000 :=
    Nat.mod_lt i.toNat (by decide : 0 < usecPerDay)
  unfold denotedUtcInstant pyIsoformatUtc pyDateTimeOfUtcInstant
  dsimp only
  simp only [List.cons_append, List.append_assoc]
  rw [pyFromisoList_print c1 c2 c3 c4 c5 c6 (by omega) (by omega) (by omega) (by omega)]
  unfold utcInstantOfParsed localUsec
  rw [Option.map_some']
  dsimp only
  rw [c7]
  have hu : usecPerDay = 86400000000 := rfl
  congr 1
  rw [hu] at hrem ⊢
  have hNat : i.toNat / 86400000000 * 86400000000 +
      ((i.toNat % 86400000000 / 1000000 / 3600 * 60 +
        i.toNat % 86400000000 / 1000000 / 60 % 60) * 60 +
        i.toNat % 86400000000 / 1000000 % 60) * 1000000 +
      i.toNat % 86400000000 % 1000000 = i.toNat := by
    omega
  rw [hNat, hn]
  simp

/-- C9: for all valid timestamp strings with `starts_at < expires_at` (and
instants in the representable range), create by a valid principal succeeds, the
returned record serializes both instants as ISO strings, and those strings
denote exactly the parsed input instants (round trip after UTC
normalization). -/
theorem claim_C9 (teachers : List String) (store : List Announcement)
    (msg expStr stStr : String) (tu : Option String) (now : Int) (newId u : String)
    (sI eI : Int)
    (hu : _require_signed_in_user teachers tu = .ok u)
    (hm1 : ¬pyStripString msg = "") (hm2 : (pyStripString msg).length ≤ 500)
    (hs : _to_utc_datetime (some stStr) "starts_at" false = .ok (some sI))
    (he : _to_utc_datetime (some expStr) "expires_at" true = .ok (some eI))
    (hlt : sI < eI)
    (hfresh : ∀ d ∈ store, d._id ≠ newId)
    (hs0 : 0 ≤ sI) (hs1 : sI < maxInstant) (he0 : 0 ≤ eI) (he1 : eI < maxInstant) :
    create_announcement teachers store msg expStr (some stStr) tu now newId =
      (store ++ [⟨newId, pyStripString msg, some sI, eI, now, now⟩],
       .ok (_serialize_announcement ⟨newId, pyStripString msg, some sI, eI, now, now⟩)) ∧
    (_serialize_announcement ⟨newId, pyStripString msg, some sI, eI, now, now⟩).starts_at =
      some (pyIsoformatUtc sI) ∧
    (_serialize_announcement ⟨newId, pyStripString msg, some sI, eI, now, now⟩).expires_at =
      some (pyIsoformatUtc eI) ∧
    denotedUtcInstant (pyIsoformatUtc sI) = some sI ∧
    denotedUtcInstant (pyIsoformatUtc eI) = some eI :=
  ⟨create_ok hu hm1 hm2 hs he (fun _ h => Option.some.inj h ▸ hlt) hfresh,
   rfl, rfl, denoted_iso_roundtrip hs0 hs1, denoted_iso_roundtrip he0 he1⟩

/-- Witness for C9: an input with a +05:30 offset round-trips to the same UTC
instant. -/
theorem claim_C9_witness :
    denotedUtcInstant (pyIsoformatUtc
        (utcInstantOfParsed ⟨2025, 1, 1, 5, 30, 0, 0, some 19800⟩)) =
      some (utcInstantOfParsed ⟨2025, 1, 1, 5, 30, 0, 0, some 19800⟩) :=
  (claim_C9 ["alice"] [] "hi" "2025-01-02T00:00:00Z" "2025-01-01T05:30:00+05:30"
      (some "alice") 0 "cccccccccccccccccccccccc" "alice"
      (utcInstantOfParsed ⟨2025, 1, 1, 5, 30, 0, 0, some 19800⟩)
      (utcInstantOfParsed ⟨2025, 1, 2, 0, 0, 0, 0, some 0⟩)
      (by decide) (by decide) (by decide) (by decide) (by decide) (by decide)
      (fun d hd => absurd hd (List.not_mem_nil d))
      (by decide) (by decide) (by decide) (by decide)).2.2.2.1

end Announcements
